import Mathlib

/-!
A shallow embedding of the core of the mica MUD server (src/mica/core.py and
src/mica/commands.py) in Lean 4, together with theorems settling the claims
about its specification.

Conventions of the embedding:
* Python strings are modelled as lists of characters (`Str`), so that the
  Python slicing, `in`, `strip` and `split` operations have direct, provable
  counterparts.
* The SQLite database is modelled as three tables of rows (`DB`).  SQL
  queries of the source are translated into list filters over those tables,
  and the `_one_from_db` helper into `oneFromDb`, which raises
  `NotEnoughResultsException` and `TooManyResultsException` exactly like the
  source does.
* Python exceptions are modelled by the `MErr` type; a function that can
  raise returns `Except MErr` (pure reads) or a tuple carrying the state at
  the point the exception escaped (stateful code), since an exception in
  Python does not undo the writes already performed.
* Values stored in the `val` column of the `properties` table are subject to
  SQLite TEXT affinity: numeric data is converted to its text form before
  being stored (`textAffinity`), and reads always produce strings.
-/

deriving instance DecidableEq for Except

namespace Mica

/-- Python strings, modelled as lists of characters. -/
abbrev Str := List Char

/-- Conversion from Lean string literals to the `Str` model. -/
def pstr (s : String) : Str := s.toList

/-- The apostrophe character (written via its code point). -/
def apoC : Char := Char.ofNat 39

/-- Python `str.strip()` (without arguments): remove leading and trailing
whitespace. -/
def pyStrip (s : Str) : Str :=
  ((s.dropWhile Char.isWhitespace).reverse.dropWhile Char.isWhitespace).reverse

/-- Boolean prefix test on character lists. -/
def listIsPre : Str → Str → Bool
  | [], _ => true
  | _ :: _, [] => false
  | a :: as, b :: bs => a == b && listIsPre as bs

/-- Python `needle in hay` for strings: unanchored substring test. -/
def pyIn (needle : Str) : Str → Bool
  | [] => listIsPre needle []
  | c :: rest => listIsPre needle (c :: rest) || pyIn needle rest

/-- Python `s.split(sep)` for a single-character separator: splits at every
occurrence, keeping empty fields (`"".split(' ') == ['']`). -/
def pySplit (sep : Char) : Str → List Str
  | [] => [[]]
  | c :: rest =>
    if c = sep then [] :: pySplit sep rest
    else
      match pySplit sep rest with
      | [] => [[c]]
      | w :: ws => (c :: w) :: ws

/-- Digit-string parsing helper for `pyParseInt`. -/
def digitsToNat (ds : Str) : Option Nat :=
  if ds = [] then none
  else if ds.all Char.isDigit then
    some (ds.foldl (fun a c => a * 10 + (c.toNat - 48)) 0)
  else none

/-- Python `int(s)` on a string: optional surrounding whitespace, optional
sign, then decimal digits; anything else raises ValueError (modelled as
`none`).  (Pythons digit-group underscores are not modelled; no caller in
the source produces them.) -/
def pyParseInt (s : Str) : Option Int :=
  let t := pyStrip s
  match t with
  | '-' :: ds => (digitsToNat ds).map (fun n => -(n : Int))
  | '+' :: ds => (digitsToNat ds).map (fun n => (n : Int))
  | ds => (digitsToNat ds).map (fun n => (n : Int))

/-- Python values that flow into the property store in the source: the
commands write either strings or ints (`get_permission` writes an int). -/
inductive PyVal where
  | vint (n : Int)
  | vstr (s : Str)
deriving DecidableEq, Repr

/-- SQLite TEXT affinity for the `val TEXT` column of `properties`: numeric
data is converted to its text representation before being stored, so reads
always return strings. -/
def textAffinity : PyVal → Str
  | .vint n => pstr (toString n)
  | .vstr s => s

/-- The exceptions that the modelled Python code can raise.
`cmdError` is `CommandProcessingError` with its argument tuple;
`fuelExhausted` is an artefact of the fuel-indexed embedding of the
recursive `on_text` and is never produced when enough fuel is supplied. -/
inductive MErr where
  | notEnough
  | tooMany
  | keyError
  | valueError
  | typeError
  | attributeError
  | assertionError
  | indexError
  | cmdError (args : List Str)
  | accountNaming (msg : Str)
  | pythonError (msg : Str)
  | fuelExhausted
deriving DecidableEq, Repr

/-! ### The message table (`texts` in core.py).
Formatted entries become functions applying the `%` substitution. -/

def texts_welcome : Str :=
  pstr "Welcome.  Type `connect <name> <password>" ++ [apoC] ++ pstr " to connect."

def texts_badLogin : Str :=
  pstr "I" ++ [apoC] ++ pstr "m sorry, but those credentials were not right."

def texts_cmd404 : Str :=
  pstr "I don" ++ [apoC] ++ pstr "t understand what you mean."

def texts_thing404 (s : Str) : Str :=
  pstr "I can" ++ [apoC] ++ pstr "t find any such thing as `" ++ s ++ [apoC] ++ pstr "."

/-- Note: the source passes this entry to `CommandProcessingError` without
applying the `%` substitution, so the literal `%s` stays in the message. -/
def texts_thingOverflow : Str :=
  pstr "`%s" ++ [apoC] ++ pstr " is ambiguous -- I can" ++ [apoC] ++
  pstr "t tell which thing you mean."

def texts_cmdSyntax (s : Str) : Str :=
  pstr "That command needs to be written similar to `" ++ s ++ [apoC] ++ pstr "."

def texts_cmdErrWithArgs (s : Str) : Str :=
  pstr "[!!] There was a problem processing your command, but the arguments weren" ++
  [apoC] ++ pstr "t as expected: " ++ s

def texts_cmdErrUnspecified : Str :=
  pstr "[!!] There was a problem processing your command, but no explanation has been provided. Please bother your local developers."

def texts_err (s : Str) : Str := pstr "[!!] " ++ s

def texts_noPermission : Str :=
  pstr "[!!] You don" ++ [apoC] ++ pstr "t have permission to do that."

def texts_youDontExist : Str :=
  pstr "Oh gosh.  You don" ++ [apoC] ++
  pstr "t seem to exist.  We think someone deleted you, but we" ++ [apoC] ++
  pstr "re not really sure.  Um... sorry?"

def texts_triedToGoAmbiguousWay : Str :=
  pstr "There" ++ [apoC] ++ pstr "s more than one way to go `%s" ++ [apoC] ++ pstr "."

def texts_characterConnected (s : Str) : Str :=
  pstr "[##] " ++ s ++ pstr " has connected."

def texts_characterDisconnected (s : Str) : Str :=
  pstr "[##] " ++ s ++ pstr " has disconnected."

def texts_characterArrives (who whence : Str) : Str :=
  pstr "[##] " ++ who ++ pstr " arrives from " ++ whence ++ pstr "."

def texts_characterDeparts (who whither : Str) : Str :=
  pstr "[##] " ++ who ++ pstr " leaves, heading towards " ++ whither ++ pstr "."

/-! ### The database model. -/

/-- A row of the `things` table:
`(id INTEGER PRIMARY KEY, owner_id INTEGER, location_id INTEGER, passage_to NULLABLE INTEGER, name TEXT)`. -/
structure ThingRow where
  id : Int
  owner_id : Int
  location_id : Int
  passage_to : Option Int
  name : Str
deriving DecidableEq, Repr

/-- A row of the `properties` table (its unused `id` primary key is
omitted); uniqueness of `(object_id, name)` is the declared constraint. -/
structure PropRow where
  object_id : Int
  name : Str
  val : Str
deriving DecidableEq, Repr

/-- A row of the `accounts` table. `password` and `salt` hold
base64-encoded text. -/
structure AccountRow where
  id : Int
  character_id : Int
  password : Str
  salt : Str
deriving DecidableEq, Repr

/-- The database: the three tables created by `setup_db`. -/
structure DB where
  things : List ThingRow
  properties : List PropRow
  accounts : List AccountRow
deriving DecidableEq, Repr

/-- `Mica._one_from_db`: exactly one result, otherwise
`NotEnoughResultsException` or `TooManyResultsException`. -/
def oneFromDb {α : Type} : List α → Except MErr α
  | [] => .error .notEnough
  | [r] => .ok r
  | _ :: _ :: _ => .error .tooMany

/-! ### Thing accessors (class `Thing` of core.py).
A `Thing` instance is its database id (an `Int`) plus the database. -/

namespace Thing

/-- `Thing.__getitem__`: `SELECT name, val FROM properties WHERE object_id=? AND name=?`
through `_one_from_db`; `NotEnoughResultsException` becomes `KeyError`. -/
def getItem (db : DB) (t : Int) (key : Str) : Except MErr Str :=
  match oneFromDb (db.properties.filter (fun p => p.object_id == t && p.name == key)) with
  | .ok p => .ok p.val
  | .error .notEnough => .error .keyError
  | .error e => .error e

/-- `Thing.get(key, default)`: like dict `get`. The default may be a
non-string Python value (e.g. the int `-1` in `get_permission`). -/
def get (db : DB) (t : Int) (key : Str) (dflt : PyVal) : Except MErr PyVal :=
  match getItem db t key with
  | .ok v => .ok (.vstr v)
  | .error .keyError => .ok dflt
  | .error e => .error e

/-- `Thing.__setitem__`: upsert into `properties`; the stored value passes
through TEXT affinity. -/
def setItem (db : DB) (t : Int) (key : Str) (v : PyVal) : DB :=
  if db.properties.any (fun p => p.object_id == t && p.name == key) then
    { db with properties := db.properties.map (fun p =>
        if p.object_id == t && p.name == key then { p with val := textAffinity v } else p) }
  else
    { db with properties := db.properties ++ [⟨t, key, textAffinity v⟩] }

/-- `Thing.name()`: `SELECT name FROM things WHERE id=?` through `_one_from_db`. -/
def name (db : DB) (t : Int) : Except MErr Str := do
  let r ← oneFromDb (db.things.filter (fun r => r.id == t))
  return r.name

/-- `Thing.is_character()`: true iff some `accounts` row has this
`character_id`. -/
def is_character (db : DB) (t : Int) : Bool :=
  (db.accounts.filter (fun a => a.character_id == t)).length > 0

/-- `Thing.contents()`: ids of the rows with `location_id = t`, skipping the
Thing itself. -/
def contents (db : DB) (t : Int) : List Int :=
  ((db.things.filter (fun r => r.location_id == t)).filter (fun r => r.id != t)).map (fun r => r.id)

end Thing

/-- `Mica.get_thing(id)`: a `Thing` for `id` if one exists, else `None`;
only `NotEnoughResultsException` is caught. -/
def get_thing (db : DB) (id : Int) : Except MErr (Option Int) :=
  match oneFromDb (db.things.filter (fun r => r.id == id)) with
  | .ok r => .ok (some r.id)
  | .error .notEnough => .ok none
  | .error e => .error e

namespace Thing

/-- `Thing.destination()`: `passage_to`, turned into a Thing via
`get_thing` (which can yield `None` for a dangling reference). -/
def destination (db : DB) (t : Int) : Except MErr (Option Int) := do
  let r ← oneFromDb (db.things.filter (fun r => r.id == t))
  match r.passage_to with
  | some d => get_thing db d
  | none => return none

/-- `Thing.location()`:
`SELECT id FROM things WHERE id IN (SELECT location_id FROM things WHERE id = ?)`,
with `NotEnoughResultsException` mapped to `None`. -/
def location (db : DB) (t : Int) : Except MErr (Option Int) :=
  match oneFromDb (db.things.filter (fun r =>
      (db.things.filter (fun s => s.id == t)).any (fun s => s.location_id == r.id))) with
  | .ok r => get_thing db r.id
  | .error .notEnough => .ok none
  | .error e => .error e

/-- `Thing.move(to_thing)`: `UPDATE things SET location_id=? WHERE id=?`. -/
def move (db : DB) (t : Int) (toT : Int) : DB :=
  { db with things := db.things.map (fun r =>
      if r.id == t then { r with location_id := toT } else r) }

/-- The message of the `AccountNamingException` raised by `set_name`. -/
def renameConflictMsg : Str :=
  pstr "Refusing to rename character to a name shared with another character"

/-- `Thing.display_name()`: `"%s [%d]" % (name, id)`. -/
def display_name (db : DB) (t : Int) : Except MErr Str := do
  let nm ← name db t
  return nm ++ pstr " [" ++ pstr (toString t) ++ pstr "]"

end Thing

/-- `Account` lookup by name (the name-directed branch of
`Account.__init__`): first the character by name among account characters,
then the account by `character_id`.  Returns `(account id, character id)`. -/
def Account.lookupByName (db : DB) (nm : Str) : Except MErr (Int × Int) := do
  let r ← oneFromDb (db.things.filter (fun t =>
      t.name == nm && db.accounts.any (fun a => a.character_id == t.id)))
  let a ← oneFromDb (db.accounts.filter (fun a => a.character_id == r.id))
  return (a.id, r.id)

/-- `Mica.find_account(name)`: an account for the character name, or `None`;
only `NotEnoughResultsException` is caught. -/
def find_account (db : DB) (nm : Str) : Except MErr (Option (Int × Int)) :=
  match Account.lookupByName db nm with
  | .ok x => .ok (some x)
  | .error .notEnough => .ok none
  | .error e => .error e

/-- `Thing.set_name(newname)`: refuse if the Thing is an account character
and any account resolves to the target name, otherwise update the row. -/
def Thing.set_name (db : DB) (t : Int) (newname : Str) : Except MErr DB := do
  if Thing.is_character db t then
    match (← find_account db newname) with
    | some _ => throw (.accountNaming Thing.renameConflictMsg)
    | none => pure ()
  return { db with things := db.things.map (fun r =>
      if r.id == t then { r with name := newname } else r) }

/-- `Thing.resolve_many_things(thing)`.  The Python function returns a list
in every explicit branch, but falls off the end of the function (returning
`None`) when the actor has no existing location; hence the `Option` in the
result.  `thing[0]` on an empty token raises `IndexError`. -/
def Thing.resolve_many_things (db : DB) (t : Int) (thing : Str) : Except MErr (Option (List Int)) := do
  let tok := pyStrip thing
  if tok = pstr "me" then
    return some [t]
  else if tok = pstr "here" then
    match (← Thing.location db t) with
    | some l => return some [l]
    | none => return some []
  else
    match tok with
    | [] => throw .indexError
    | c :: rest =>
      if c = '#' then
        match pyParseInt rest with
        | none => return some []
        | some dbref =>
          match (← get_thing db dbref) with
          | some r => return some [r]
          | none => return some []
      else
        match (← Thing.location db t) with
        | none => return none
        | some _ =>
          let cands0 := Thing.contents db t ++ [t]
          let cands ← do
            match (← Thing.location db t) with
            | some l => pure (cands0 ++ [l])
            | none => pure cands0
          let named ← cands.mapM (fun x => do
            let nm ← Thing.name db x
            return (x, nm))
          return some ((named.filter (fun p => pyIn tok p.2)).map (fun p => p.1))

/-- `Thing.resolve_one_thing(thing)`: exactly one result or
`TooManyResultsException` / `NotEnoughResultsException`. -/
def Thing.resolve_one_thing (db : DB) (t : Int) (thing : Str) : Except MErr Int := do
  match (← Thing.resolve_many_things db t thing) with
  | none => throw .notEnough
  | some [] => throw .notEnough
  | some [x] => return x
  | some (_ :: _ :: _) => throw .tooMany

/-- A link is identified by a natural number; outgoing text is collected as
`(link, text)` pairs in write order. -/
abbrev Out := List (Nat × Str)

/-- `Mica.line(text)`: append the canonical line terminator. -/
def line (s : Str) : Str := s ++ pstr "\r\n"

/-- Association-list lookup (used for the `client_states` and
`connected_things` dictionaries). -/
def alookup {κ ν : Type} [BEq κ] : List (κ × ν) → κ → Option ν
  | [], _ => none
  | p :: rest, k => if p.1 == k then some p.2 else alookup rest k

/-- Association-list insert-or-replace (Python `d[k] = v`). -/
def aset {κ ν : Type} [BEq κ] (d : List (κ × ν)) (k : κ) (v : ν) : List (κ × ν) :=
  if d.any (fun p => p.1 == k) then
    d.map (fun p => if p.1 == k then (k, v) else p)
  else
    d ++ [(k, v)]

/-- `Thing.tell(msg, exclude)`: strip the message, require it nonempty, then
write it to every Thing in `contents(self) + [self]` that is connected
(`connected_things`) and not excluded.  `exclude` is already a list of ids. -/
def Thing.tell (db : DB) (ct : List (Int × Nat)) (t : Int) (msg : Str) (exclude : List Int) :
    Except MErr Out :=
  let m := pyStrip msg
  if m.length < 1 then .error .valueError
  else .ok ((Thing.contents db t ++ [t]).filterMap (fun x =>
    match alookup ct x with
    | some l => if x ∈ exclude then none else some (l, line m)
    | none => none))

/-- The list comprehension of `traverse_exit`: the exits of `fromloc`
(contents with a non-`None` destination) whose name contains `exitname`. -/
def Thing.prospective_exits (db : DB) (fromloc : Int) (exitname : Str) : Except MErr (List Int) := do
  let exits ← (Thing.contents db fromloc).filterM (fun x => do
    let d ← Thing.destination db x
    return d.isSome)
  exits.filterM (fun x => do
    let nm ← Thing.name db x
    return pyIn exitname nm)

/-- `Thing.traverse_exit(exitname)`.  Returns the (possibly updated)
database, the broadcast output, and either the result of the Python
function (`None` when the actor has no existing location, otherwise the new
location) or the escaped exception. -/
def Thing.traverse_exit (db : DB) (ct : List (Int × Nat)) (t : Int) (exitname : Str) :
    DB × Out × Except MErr (Option Int) :=
  match Thing.location db t with
  | .error e => (db, [], .error e)
  | .ok none => (db, [], .ok none)
  | .ok (some fromloc) =>
    match Thing.prospective_exits db fromloc exitname with
    | .error e => (db, [], .error e)
    | .ok pros =>
      match pros with
      | [ex] =>
        match Thing.destination db ex with
        | .error e => (db, [], .error e)
        | .ok none => (db, [], .error .attributeError)
        | .ok (some toloc) =>
          match Thing.location db t with
          | .error e => (db, [], .error e)
          | .ok none => (db, [], .error .attributeError)
          | .ok (some dloc) =>
            match Thing.display_name db t, Thing.name db toloc with
            | .error e, _ => (db, [], .error e)
            | .ok _, .error e => (db, [], .error e)
            | .ok dn, .ok tn =>
              match Thing.tell db ct dloc (texts_characterDeparts dn tn) [t] with
              | .error e => (db, [], .error e)
              | .ok outD =>
                let db2 := Thing.move db t toloc
                match Thing.location db2 t with
                | .error e => (db2, outD, .error e)
                | .ok none => (db2, outD, .error .attributeError)
                | .ok (some aloc) =>
                  match Thing.display_name db2 t, Thing.name db2 fromloc with
                  | .error e, _ => (db2, outD, .error e)
                  | .ok _, .error e => (db2, outD, .error e)
                  | .ok dn2, .ok fn =>
                    match Thing.tell db2 ct aloc (texts_characterArrives dn2 fn) [t] with
                    | .error e => (db2, outD, .error e)
                    | .ok outA => (db2, outD ++ outA, .ok (some toloc))
      | [] => (db, [], .error .notEnough)
      | _ :: _ :: _ => (db, [], .error .tooMany)

/-! ### Passwords (class `Account`).
`hashlib.pbkdf2_hmac`, `base64.b64encode` / `b64decode`, `str.encode` and
`os.urandom` are library primitives external to the repository, so they enter
the model as the components of a `CryptoModel`; the fresh salt drawn by
`set_password` is passed explicitly. -/

structure CryptoModel where
  /-- `hashlib.pbkdf2_hmac('sha256', password, salt, iterations)`. -/
  pbkdf2_hmac_sha256 : List Nat → List Nat → Nat → List Nat
  /-- `base64.b64encode(..).decode('ascii')`. -/
  b64encode : List Nat → Str
  /-- `base64.b64decode(..)`. -/
  b64decode : Str → List Nat
  /-- `str.encode('utf-8')`. -/
  utf8 : Str → List Nat

/-- `Account._hash(password, salt)`: pbkdf2 with 250000 iterations. -/
def Account.hashFn (cm : CryptoModel) (password salt : List Nat) : List Nat :=
  cm.pbkdf2_hmac_sha256 password salt 250000

/-- `Account.check_password(candidate)`: re-derive with the stored salt and
compare with the stored hash. -/
def Account.check_password (cm : CryptoModel) (db : DB) (aid : Int) (candidate : Str) :
    Except MErr Bool := do
  let a ← oneFromDb (db.accounts.filter (fun a => a.id == aid))
  let hashed_password := cm.b64decode a.password
  let salt := cm.b64decode a.salt
  let hashed_candidate := Account.hashFn cm (cm.utf8 candidate) salt
  return hashed_candidate == hashed_password

/-- `Account.set_password(password)`: hash with a fresh salt and store both
base64-encoded. -/
def Account.set_password (cm : CryptoModel) (db : DB) (aid : Int) (password : Str)
    (freshSalt : List Nat) : DB :=
  let hashed_result := Account.hashFn cm (cm.utf8 password) freshSalt
  let pw := cm.b64encode hashed_result
  let salt := cm.b64encode freshSalt
  { db with accounts := db.accounts.map (fun a =>
      if a.id == aid then { a with password := pw, salt := salt } else a) }

/-! ### The server state and the dispatch machinery (class `Mica`). -/

/-- The mutable state of a `Mica` instance: the SQLite connection is a pair
of database snapshots (`cur` is what reads and writes see, `saved` is the
last committed state -- Python sqlite3 opens an implicit transaction at the
first write, `commit` makes `saved := cur` and `rollback` makes
`cur := saved`), plus the two in-memory session dictionaries, which are not
part of any transaction. -/
structure St where
  cur : DB
  saved : DB
  /-- `client_states`, reduced to its only key: link ↦ `'character'` value
  (`-1` for a connection that has not logged in). -/
  clientStates : List (Nat × Int)
  /-- `connected_things`: character id ↦ link. -/
  connectedThings : List (Int × Nat)
deriving Repr, DecidableEq

/-- The configuration of a `Mica` instance that commands do not change. -/
structure Config where
  motd : Option Str
  loginCommands : List Str
  showTracebacks : Bool
  crypto : CryptoModel

/-- A command handler: it receives the fuel (for handlers that re-enter
`on_text`), the link, the argument text and the state, and returns the
state at exit together with its output and the exception it raised, if
any.  (In the source a handler is a closure over the `Mica` instance.) -/
abbrev Handler := Nat → Nat → Str → St → St × Out × Option MErr

/-- `_commands` and `_prefix_commands`: ordered registries. -/
structure Registry where
  commands : List (Str × Handler)
  prefixCommands : List (Str × Handler)

/-- Python `repr` of a string (quote with apostrophes; escaping of special
characters inside is not modelled, no caller produces them). -/
def pyReprStr (s : Str) : Str := [apoC] ++ s ++ [apoC]

/-- Python `repr` of a tuple of strings, as produced by `repr(e.args)`. -/
def pyReprArgs (args : List Str) : Str :=
  pstr "(" ++ (((args.map pyReprStr).intersperse (pstr ", ")).flatten) ++ pstr ")"

/-- Stand-in for `traceback.format_exc(chain=False)`: some text describing
the exception (the exact traceback text is outside the model). -/
def format_exc (e : MErr) : Str := pstr (reprStr e)

/-- `Mica.call_command(link, cmd, text)`: run the handler; on
`CommandProcessingError` write its message (or a fallback) and roll back;
on any other exception write the generic failure (plus traceback text when
enabled) and roll back; on normal completion commit. -/
def call_command (cfg : Config) (cmd : Handler) (fuel link : Nat) (text : Str) (st : St) :
    St × Out :=
  match cmd fuel link text st with
  | (st', out, none) =>
    ({ st' with saved := st'.cur }, out)
  | (st', out, some (.cmdError args)) =>
    let msg := match args with
      | [a] => a
      | [] => texts_cmdErrUnspecified
      | _ :: _ :: _ => texts_cmdErrWithArgs (pyReprArgs args)
    ({ st' with cur := st'.saved }, out ++ [(link, line msg)])
  | (st', out, some e) =>
    let tb := if cfg.showTracebacks then texts_err (format_exc e)
              else texts_err (pstr "Exception not printed")
    ({ st' with cur := st'.saved },
     out ++ [(link, line texts_cmdErrUnspecified), (link, line tb)])

/-- The `for cmd in self.login_commands` loop of `_try_login`: run each line
through the given step function, stopping at the first escaped exception. -/
def run_lines (step : Str → St → St × Out × Option MErr) :
    List Str → St → St × Out × Option MErr
  | [], st => (st, [], none)
  | c :: rest, st =>
    match step c st with
    | (st', out, some e) => (st', out, some e)
    | (st', out, none) =>
      let r := run_lines step rest st'
      (r.1, out ++ r.2.1, r.2.2)

/-- `Mica._try_login(link, args)`.  `step` is `self.on_text(link, ·)`, used
for the configured login commands. -/
def try_login (cfg : Config) (step : Str → St → St × Out × Option MErr)
    (link : Nat) (args : Str) (st : St) : St × Out × Option MErr :=
  match pySplit ' ' args with
  | [nm, pw] =>
    (match find_account st.cur nm with
     | .error e => (st, [], some e)
     | .ok none => (st, [(link, line texts_badLogin)], none)
     | .ok (some acct) =>
       match Account.check_password cfg.crypto st.cur acct.1 pw with
       | .error e => (st, [], some e)
       | .ok false => (st, [(link, line texts_badLogin)], none)
       | .ok true =>
         match alookup st.clientStates link with
         | none => (st, [], some .keyError)
         | some _ =>
           let st1 := { st with
             clientStates := aset st.clientStates link acct.2,
             connectedThings := aset st.connectedThings acct.2 link }
           let motdOut : Out := match cfg.motd with
             | some m => [(link, line m)]
             | none => []
           match run_lines step cfg.loginCommands st1 with
           | (st2, out2, some e) => (st2, motdOut ++ out2, some e)
           | (st2, out2, none) =>
             match get_thing st2.cur acct.2 with
             | .error e => (st2, motdOut ++ out2, some e)
             | .ok none => (st2, motdOut ++ out2, some .attributeError)
             | .ok (some chr) =>
               match Thing.location st2.cur chr with
               | .error e => (st2, motdOut ++ out2, some e)
               | .ok none => (st2, motdOut ++ out2, none)
               | .ok (some whe) =>
                 match Thing.display_name st2.cur chr with
                 | .error e => (st2, motdOut ++ out2, some e)
                 | .ok dn =>
                   match Thing.tell st2.cur st2.connectedThings whe
                       (texts_characterConnected dn) [] with
                   | .error e => (st2, motdOut ++ out2, some e)
                   | .ok out3 => (st2, motdOut ++ out2 ++ out3, none))
  | _ =>
    (st, [(link, line (texts_cmdSyntax (pstr "connect <username> <password>")))], none)

/-- The matching condition of the full-command loop of `on_text`:
`cmd[0] + ' ' == text[:len(cmd[0])+1] or cmd[0].strip() == text.strip()`. -/
def full_cmd_matches (nm text : Str) : Bool :=
  nm ++ [' '] == text.take (nm.length + 1) || pyStrip nm == pyStrip text

/-- Lift the result of `call_command` (which swallows every handler
exception) into the result type of `on_text`. -/
def noErr (p : St × Out) : St × Out × Option MErr := (p.1, p.2, none)

/-- `Mica.on_text(link, text)`, fuel-indexed to make the recursion through
`_try_login` (login commands) and the movement fallback (`"look"`)
well-founded.  With enough fuel the `fuelExhausted` branch is never taken. -/
def on_text (reg : Registry) (cfg : Config) (fuel : Nat) (link : Nat) (text : Str) (st : St) :
    St × Out × Option MErr :=
  match fuel with
  | 0 => (st, [], some .fuelExhausted)
  | Nat.succ f =>
    match alookup st.clientStates link with
    | none => (st, [], some .assertionError)
    | some s =>
      if s = -1 then
        if text.take 7 = pstr "connect" then
          try_login cfg (fun c st2 => on_text reg cfg f link c st2) link (text.drop 8) st
        else
          (st, [(link, line texts_cmd404)], none)
      else
        match reg.prefixCommands.find? (fun c => c.1 == text.take c.1.length) with
        | some c => noErr (call_command cfg c.2 f link (text.drop c.1.length) st)
        | none =>
          match reg.commands.find? (fun c => full_cmd_matches c.1 text) with
          | some c => noErr (call_command cfg c.2 f link (text.drop (c.1.length + 1)) st)
          | none =>
            match get_thing st.cur s with
            | .error e => (st, [], some e)
            | .ok none => (st, [(link, line texts_youDontExist)], none)
            | .ok (some _) =>
              match Thing.location st.cur s with
              | .error e => (st, [], some e)
              | .ok none => (st, [(link, line texts_cmd404)], none)
              | .ok (some _) =>
                match Thing.traverse_exit st.cur st.connectedThings s (pyStrip text) with
                | (db', out1, .ok _) =>
                  let r := on_text reg cfg f link (pstr "look") { st with cur := db' }
                  (r.1, out1 ++ r.2.1, r.2.2)
                | (db', out1, .error .notEnough) =>
                  ({ st with cur := db' }, out1 ++ [(link, line texts_cmd404)], none)
                | (db', out1, .error .tooMany) =>
                  ({ st with cur := db' },
                   out1 ++ [(link, line texts_triedToGoAmbiguousWay)], none)
                | (db', out1, .error e) => ({ st with cur := db' }, out1, some e)

/-- `Mica.on_connection(new_link)`: register the link as not logged in and
send the welcome text. -/
def on_connection (st : St) (link : Nat) : St × Out :=
  ({ st with clientStates := aset st.clientStates link (-1) },
   [(link, line texts_welcome)])

/-- `Mica.on_disconnection(old_link)`: broadcast the disconnect (when the
character exists; `me.location()` being `None` raises before any state
change), then delete the link from `client_states` and purge
`connected_things` entries whose link is no longer a `client_states` key. -/
def on_disconnection (st : St) (link : Nat) : St × Out × Option MErr :=
  match alookup st.clientStates link with
  | none => (st, [], some .assertionError)
  | some c =>
    let proceed : Out → St × Out × Option MErr := fun out =>
      let cs' := st.clientStates.filter (fun p => !(p.1 == link))
      let ct' := st.connectedThings.filter (fun p => cs'.any (fun q => q.1 == p.2))
      ({ st with clientStates := cs', connectedThings := ct' }, out, none)
    match get_thing st.cur c with
    | .error e => (st, [], some e)
    | .ok none => proceed []
    | .ok (some me) =>
      match Thing.location st.cur me with
      | .error e => (st, [], some e)
      | .ok none => (st, [], some .attributeError)
      | .ok (some l) =>
        match Thing.name st.cur me with
        | .error e => (st, [], some e)
        | .ok nm =>
          match Thing.tell st.cur st.connectedThings l
              (texts_characterDisconnected nm) [] with
          | .error e => (st, [], some e)
          | .ok out => proceed out

/-- `Mica.pov_get_thing_by_name(link, thing)`: resolve from the connected
character, translating lookup errors into `CommandProcessingError`. -/
def pov_get_thing_by_name (db : DB) (cs : List (Nat × Int)) (link : Nat) (thing : Str) :
    Except MErr Int :=
  match alookup cs link with
  | none => .error .assertionError
  | some c =>
    match get_thing db c with
    | .error e => .error e
    | .ok none => .error .attributeError
    | .ok (some pov) =>
      match Thing.resolve_one_thing db pov thing with
      | .ok r => .ok r
      | .error .notEnough => .error (.cmdError [texts_thing404 thing])
      | .error .tooMany => .error (.cmdError [texts_thingOverflow])
      | .error e => .error e

/-! ### Commands (commands.py): the permission check and `do_jump`. -/

def PERMISSION_GUEST : Int := 10

def PERMISSION_BUILDER : Int := 20

def PERMISSION_WIZARD : Int := 30

/-- `get_permission(char)`: object 1 is always WIZARD; otherwise read the
`privilege_level` property with default `-1`, and on the default (the only
way the read can be the int `-1`, making the `l is -1` identity test true)
persist and return GUEST.  The returned value is a `PyVal` because a stored
level comes back from the TEXT column as a string.  Returns the possibly
updated database alongside the level. -/
def get_permission (db : DB) (c : Int) : Except MErr (DB × PyVal) := do
  if c = 1 then
    return (db, .vint PERMISSION_WIZARD)
  else
    let l ← Thing.get db c (pstr "privilege_level") (.vint (-1))
    if l = .vint (-1) then
      let l' := PERMISSION_GUEST
      let db' := Thing.setItem db c (pstr "privilege_level") (.vint l')
      return (db', .vint l')
    else
      return (db, l)

/-- Python `<` between a value and an int: defined for ints, raises
`TypeError` when the left operand is a string (Python 3). -/
def pyLtInt : PyVal → Int → Except MErr Bool
  | .vint n, m => .ok (decide (n < m))
  | .vstr _, _ => .error .typeError

/-- `check_permission(char, level)`: raise the no-permission
`CommandProcessingError` when `get_permission(char) < level`. -/
def check_permission (db : DB) (c : Int) (level : Int) : Except MErr DB := do
  let r ← get_permission db c
  if (← pyLtInt r.2 level) then
    throw (.cmdError [texts_noPermission])
  else
    return r.1

/-- `do_jump(link, text)`.  `onTextFn` is the `m.on_text` closure used for
the final `look`; it is irrelevant on every path that raises earlier. -/
def do_jump (onTextFn : Nat → Nat → Str → St → St × Out × Option MErr) : Handler :=
  fun fuel link text st =>
    match alookup st.clientStates link with
    | none => (st, [], some .keyError)
    | some c =>
      match get_thing st.cur c with
      | .error e => (st, [], some e)
      | .ok none => (st, [], some .attributeError)
      | .ok (some me) =>
        match check_permission st.cur me PERMISSION_BUILDER with
        | .error e => (st, [], some e)
        | .ok db1 =>
          let st1 := { st with cur := db1 }
          let t := pyStrip text
          if t.length < 1 then
            (st1, [], some (.cmdError [texts_cmdSyntax (pstr "jump #400")]))
          else
            match pov_get_thing_by_name st1.cur st1.clientStates link t with
            | .error e => (st1, [], some e)
            | .ok dest =>
              let st2 := { st1 with cur := Thing.move st1.cur me dest }
              let r := onTextFn fuel link (pstr "look") st2
              (r.1, r.2.1, r.2.2)

/-- `do_badly` (the `crash` debugging command): raise a plain `Exception`. -/
def do_badly : Handler := fun _ _ _ st =>
  (st, [], some (.pythonError (pstr "This isn" ++ [apoC] ++ pstr "t a good thing.")))

def dbT : DB :=
  { things := [⟨1,1,2,none,pstr "One"⟩, ⟨2,1,2,none,pstr "Nexus"⟩, ⟨3,1,2,none,pstr "ball"⟩],
    properties := [], accounts := [⟨1,1,pstr "",pstr ""⟩] }

def dbM : DB :=
  { things := [⟨1,1,10,none,pstr "One"⟩, ⟨10,1,10,none,pstr "Plaza"⟩,
               ⟨11,1,10,some 20,pstr "north"⟩, ⟨12,1,10,some 21,pstr "north gate"⟩,
               ⟨20,1,20,none,pstr "North Hall"⟩, ⟨21,1,21,none,pstr "Gatehouse"⟩],
    properties := [], accounts := [] }

def cmS : CryptoModel :=
  ⟨fun p s _ => p ++ s, fun bs => bs.map (fun n => Char.ofNat n), fun s => s.map (fun c => c.toNat), fun s => s.map (fun c => c.toNat)⟩

def cfgS : Config := ⟨none, [], false, cmS⟩

def regS : Registry := ⟨[], []⟩

def stM : St := ⟨dbM, dbM, [(0, 1)], []⟩

def dbP : DB :=
  { things := [⟨5,5,2,none,pstr "Guest"⟩, ⟨2,1,2,none,pstr "Nexus"⟩],
    properties := [⟨5, pstr "privilege_level", pstr "10"⟩], accounts := [] }

def dbP2 : DB := { dbP with properties := [] }

def stP : St := ⟨dbP, dbP, [(0, 5)], []⟩

def stP2 : St := ⟨dbP2, dbP2, [(0, 5)], []⟩

def onF : Nat → Nat → Str → St → St × Out × Option MErr :=
  fun _ _ _ st => (st, [], some .fuelExhausted)

def dbL : DB :=
  { things := [⟨1,1,99,none,pstr "One"⟩],
    properties := [],
    accounts := [⟨1, 1, [Char.ofNat 112, Char.ofNat 119, Char.ofNat 7], [Char.ofNat 7]⟩] }

def stL : St := ⟨dbL, dbL, [(0, -1)], []⟩

def dbC1 : DB := ⟨[⟨1, 1, 1, none, pstr "One"⟩], [⟨1, pstr "desc", pstr "old"⟩], []⟩

def stC1 : St := ⟨dbC1, dbC1, [(0, 1)], []⟩

/-- A handler that writes a property and then raises `CommandProcessingError`. -/
def hC1 : Handler := fun _ _ _ s =>
  ({ s with cur := Thing.setItem s.cur 1 (pstr "desc") (.vstr (pstr "new")) },
   [], some (.cmdError [pstr "boom"]))

/-- A trivial handler standing in for `do_look` in the C5 witness. -/
def hLookW : Handler := fun _ _ _ st => (st, [], none)

/-- A concrete, provably lossless codec used to instantiate the abstract
base64 pair of a `CryptoModel` in witnesses. -/
def unaryEncode : List Nat → Str
  | [] => []
  | n :: rest => List.replicate n '1' ++ ';' :: unaryEncode rest

def unaryDecodeAux : Str → Nat → List Nat
  | [], _ => []
  | c :: rest, acc =>
    if c = ';' then acc :: unaryDecodeAux rest 0 else unaryDecodeAux rest (acc + 1)

def unaryDecode (s : Str) : List Nat := unaryDecodeAux s 0

/-- The crypto model used in witnesses: an arbitrary executable stand-in
for pbkdf2 and utf-8, and the lossless unary codec for base64. -/
def cmW : CryptoModel :=
  ⟨fun p s _ => p ++ s, unaryEncode, unaryDecode, fun s => s.map (fun c => c.toNat)⟩

def dbW7 : DB := ⟨[], [], [⟨1, 1, [], []⟩]⟩

/-- Trivial step function for the C8 witness (login commands never run on
the failure paths). -/
def stepW : Str → St → St × Out × Option MErr := fun _ st => (st, [], none)

/-! ### C9: machinery for the session / reverse-index invariant. -/

/-- The public session operations driven by the network code. -/
inductive SessionOp where
  | connect (link : Nat)
  | text (fuel link : Nat) (msg : Str)
  | disconnect (link : Nat)

/-- Apply one public operation.  The Link contract (core.py: link objects
"will always be unique among all links") is modelled by ignoring an
`on_connection` for a link that is still registered. -/
def applyOp (reg : Registry) (cfg : Config) (st : St) : SessionOp → St
  | .connect l =>
    if st.clientStates.any (fun p => p.1 == l) then st else (on_connection st l).1
  | .text f l m => (on_text reg cfg f l m st).1
  | .disconnect l => (on_disconnection st l).1

def runOps (reg : Registry) (cfg : Config) : St → List SessionOp → St
  | st, [] => st
  | st, op :: rest => runOps reg cfg (applyOp reg cfg st op) rest

/-- The claimed invariant: every `connected_things` entry `(thingId, link)`
has `link` present in `client_states` with its character equal to
`thingId` (and is a real character entry, not the `-1` marker). -/
def SessionInv (st : St) : Prop :=
  ∀ p ∈ st.connectedThings, p.1 ≠ -1 ∧ alookup st.clientStates p.2 = some p.1

/-- No account row uses the `-1` not-logged-in sentinel as its character id
(true of every database SQLite can hold together with the code that
creates accounts; `-1` is reserved by `on_text` for unauthenticated
sessions). -/
def AccountsOK (db : DB) : Prop := ∀ a ∈ db.accounts, a.character_id ≠ -1

/-- The strengthened induction invariant. -/
def StInv (st : St) : Prop := SessionInv st ∧ AccountsOK st.cur ∧ AccountsOK st.saved

/-- A handler that does not touch the session dictionaries and leaves the
`accounts` table alone -- true of every command in commands.py, which only
read `client_states` and never write `accounts`. -/
def HandlerOK (h : Handler) : Prop :=
  ∀ fuel link text st,
    (h fuel link text st).1.clientStates = st.clientStates
    ∧ (h fuel link text st).1.connectedThings = st.connectedThings
    ∧ (h fuel link text st).1.cur.accounts = st.cur.accounts
    ∧ (h fuel link text st).1.saved.accounts = st.saved.accounts

def RegistryOK (reg : Registry) : Prop :=
  (∀ p ∈ reg.commands, HandlerOK p.2) ∧ (∀ p ∈ reg.prefixCommands, HandlerOK p.2)

/-- The registry of the C9 witness: the `crash` debugging command. -/
def regW9 : Registry := ⟨[(pstr "crash", do_badly)], []⟩

/-! ## Helper lemmas and claim theorems -/

/-- C1: for every command handler invoked through `Mica.call_command`, and
every Thing and property key: if the handler writes properties (leaving the
committed snapshot alone, as every database write in the source does) and
then raises -- `CommandProcessingError` or anything else -- then after
`call_command` returns, the stored value of every property equals its value
before the handler ran (rollback makes the write invisible); if the handler
completes without raising, its writes are committed (both visible and
durable).  The `st.cur = st.saved` hypothesis states that no transaction is
left open when the command starts, which `call_command` itself guarantees
by always finishing with a commit or a rollback. -/
theorem C1_call_command_atomicity
    (cfg : Config) (h : Handler) (fuel link : Nat) (text : Str) (st st' : St) (out : Out)
    (hclean : st.cur = st.saved) :
    (∀ e : MErr, h fuel link text st = (st', out, some e) → st'.saved = st.saved →
      ∀ tid key, Thing.getItem (call_command cfg h fuel link text st).1.cur tid key
        = Thing.getItem st.cur tid key)
    ∧ (h fuel link text st = (st', out, none) →
      (call_command cfg h fuel link text st).1.cur = st'.cur
      ∧ (call_command cfg h fuel link text st).1.saved = st'.cur) := by
  constructor
  · intro e hrun hsv tid key
    unfold call_command
    rw [hrun]
    cases e <;> simp <;> rw [hsv, ← hclean]
  · intro hrun
    unfold call_command
    rw [hrun]
    exact ⟨rfl, rfl⟩

theorem C1_witness :
    Thing.getItem (call_command cfgS hC1 3 0 (pstr "x") stC1).1.cur 1 (pstr "desc")
      = Thing.getItem stC1.cur 1 (pstr "desc") :=
  (C1_call_command_atomicity cfgS hC1 3 0 (pstr "x") stC1
      ({ stC1 with cur := Thing.setItem stC1.cur 1 (pstr "desc") (.vstr (pstr "new")) }) []
      rfl).1 (.cmdError [pstr "boom"]) rfl rfl 1 (pstr "desc")

/-- C5: a registered full command `(name, handler)` matches an input line
exactly when the trimmed line equals the name or the line starts with the
name followed by a space (for names without surrounding whitespace, which
is how every command is registered); consequently a registered name that is
a textual prefix of another never captures input spelling out the longer
name: with both `l` and `look` registered, in either order, the line
`look` dispatches to the handler registered under `look`. -/
theorem C5_full_command_matching
    (cfg : Config) (h1 h2 : Handler) (fuel link : Nat) (c : Int) (st : St)
    (hs : alookup st.clientStates link = some c) (hauth : c ≠ -1) :
    (∀ nm text : Str, pyStrip nm = nm →
      (full_cmd_matches nm text = true ↔ (pyStrip text = nm ∨ nm ++ [' '] <+: text)))
    ∧ on_text ⟨[(pstr "l", h1), (pstr "look", h2)], []⟩ cfg (fuel + 1) link (pstr "look") st
        = noErr (call_command cfg h2 fuel link [] st)
    ∧ on_text ⟨[(pstr "look", h2), (pstr "l", h1)], []⟩ cfg (fuel + 1) link (pstr "look") st
        = noErr (call_command cfg h2 fuel link [] st) := by
  have e1 : full_cmd_matches (pstr "l") (pstr "look") = false := by decide
  have e2 : full_cmd_matches (pstr "look") (pstr "look") = true := by decide
  have e3 : (pstr "look").drop ((pstr "look").length + 1) = [] := by decide
  refine ⟨?_, ?_, ?_⟩
  · intro nm text hnm
    rw [full_cmd_matches, Bool.or_eq_true, beq_iff_eq, beq_iff_eq, hnm]
    rw [List.prefix_iff_eq_take]
    simp only [List.length_append, List.length_singleton, eq_comm]
    exact or_comm
  · rw [on_text]
    simp only [hs, List.find?, e1, e2, if_neg hauth]
    rw [e3]
  · rw [on_text]
    simp only [hs, List.find?, e1, e2, if_neg hauth]
    rw [e3]

theorem C5_witness :
    on_text ⟨[(pstr "l", do_badly), (pstr "look", hLookW)], []⟩ cfgS 4 0 (pstr "look") stM
      = noErr (call_command cfgS hLookW 3 0 [] stM) :=
  (C5_full_command_matching cfgS do_badly hLookW 3 0 1 stM rfl (by decide)).2.1

/-- C2: evidence against the claim (and against the resolver docstring).
In `dbT`, Thing 3 (`ball`) is located inside Thing 2, the location of the
actor (Thing 1), and its name contains the token `ball`; the claim says a
substring match drawn from the location contents must return it, but
`resolve_many_things` builds its candidates only from the actor contents,
the actor itself and the location Thing itself, so it returns the empty
list. -/
theorem C2_resolver_ignores_location_contents :
    Thing.resolve_many_things dbT 1 (pstr "ball") = .ok (some [])
    ∧ Thing.location dbT 1 = .ok (some 2)
    ∧ 3 ∈ Thing.contents dbT 2
    ∧ Thing.name dbT 3 = .ok (pstr "ball")
    ∧ pyIn (pstr "ball") (pstr "ball") = true := by decide

/-- C10: when the actor has no existing location, `resolve_many_things`
returns `None` (no candidate list at all) for every nonempty token that is
not `me`, not `here` and not `#`-prefixed -- in particular the actor own
contents and name are never consulted -- and `resolve_one_thing`
accordingly raises `NotEnoughResultsException`. -/
theorem C10_resolution_without_location (db : DB) (t : Int) (thing : Str)
    (hloc : Thing.location db t = .ok none)
    (hme : pyStrip thing ≠ pstr "me")
    (hhere : pyStrip thing ≠ pstr "here")
    (hne : pyStrip thing ≠ [])
    (hhash : (pyStrip thing).head? ≠ some '#') :
    Thing.resolve_many_things db t thing = .ok none
    ∧ Thing.resolve_one_thing db t thing = .error .notEnough := by
  have key : Thing.resolve_many_things db t thing = .ok none := by
    unfold Thing.resolve_many_things
    rw [if_neg hme, if_neg hhere]
    cases htok : pyStrip thing with
    | nil => exact absurd htok hne
    | cons c rest =>
      have hc : ¬(c = '#') := by
        intro h
        apply hhash
        rw [htok, h]
        rfl
      dsimp only
      rw [if_neg hc, hloc]
      rfl
  refine ⟨key, ?_⟩
  unfold Thing.resolve_one_thing
  rw [key]
  rfl

theorem C10_witness :
    Thing.resolve_many_things dbL 1 (pstr "One") = .ok none
    ∧ Thing.resolve_one_thing dbL 1 (pstr "One") = .error .notEnough :=
  C10_resolution_without_location dbL 1 (pstr "One")
    (by decide) (by decide) (by decide) (by decide) (by decide)

/-- C4: evidence that the permission gate does not behave as claimed for a
GUEST whose level has been persisted.  `get_permission` writes the Python
int `10` into the TEXT-affinity `val` column, so it is stored as the string
`"10"`; once stored (which the code itself does on the first permission
check of any successfully completed command, e.g. the `look` auto-run at
login), the next check compares that string against an int and raises
`TypeError`, so `call_command` emits the generic unspecified-error message
instead of the no-permission message.  A fresh GUEST (no stored level)
does get the claimed `CommandProcessingError` with the no-permission text,
and the rollback leaves the committed database unchanged. -/
theorem C4_permission_gate_evidence :
    -- the code itself persists the level as the text "10" and then trips over it:
    get_permission dbP2 5
      = .ok (Thing.setItem dbP2 5 (pstr "privilege_level") (.vint 10), .vint 10)
    ∧ Thing.getItem (Thing.setItem dbP2 5 (pstr "privilege_level") (.vint 10)) 5
        (pstr "privilege_level") = .ok (pstr "10")
    ∧ check_permission (Thing.setItem dbP2 5 (pstr "privilege_level") (.vint 10)) 5
        PERMISSION_BUILDER = .error .typeError
    -- a GUEST with the persisted level invoking the BUILDER-gated `jump`:
    ∧ do_jump onF 3 0 (pstr " #2") stP = (stP, [], some .typeError)
    ∧ (call_command cfgS (do_jump onF) 3 0 (pstr " #2") stP).2
        = [(0, line texts_cmdErrUnspecified),
           (0, line (texts_err (pstr "Exception not printed")))]
    ∧ (call_command cfgS (do_jump onF) 3 0 (pstr " #2") stP).1.cur = stP.saved
    -- a fresh GUEST gets the claimed behaviour, with nothing committed:
    ∧ (do_jump onF 3 0 (pstr " #2") stP2).2.2 = some (.cmdError [texts_noPermission])
    ∧ (call_command cfgS (do_jump onF) 3 0 (pstr " #2") stP2).2
        = [(0, line texts_noPermission)]
    ∧ (call_command cfgS (do_jump onF) 3 0 (pstr " #2") stP2).1.cur = dbP2 := by
  decide

/-- C6 counterexample: the claim says `set_name` signals a naming conflict
only when another account, distinct from the renamed character's own,
already uses the target name.  In `dbT` the only account belongs to
character 1 (`One`), yet renaming character 1 to its own name `One` is
refused -- `find_account` finds the character's own account, so the claimed
iff fails at this input. -/
theorem C6_counterexample :
    Thing.set_name dbT 1 (pstr "One") = .error (.accountNaming Thing.renameConflictMsg)
    ∧ Thing.is_character dbT 1 = true
    ∧ (∀ a ∈ dbT.accounts, a.character_id = 1) := by decide

/-- C6 (amended): `set_name` signals `AccountNamingException` if and only
if the renamed Thing is an account character and ANY account -- possibly
the renamed character's own -- already resolves to the target name;
otherwise the rename succeeds and the stored name of the Thing is updated
to the new name.  (`hfa` states that the account lookup itself does not
raise, which holds whenever character names are unique, the enforced
invariant.) -/
theorem C6_rename_conflict_amended (db : DB) (t : Int) (nn : Str) (r : Option (Int × Int))
    (hfa : find_account db nn = .ok r) :
    (Thing.set_name db t nn = .error (.accountNaming Thing.renameConflictMsg)
      ↔ (Thing.is_character db t = true ∧ r.isSome = true))
    ∧ (¬(Thing.is_character db t = true ∧ r.isSome = true) →
        Thing.set_name db t nn
          = .ok { db with things := db.things.map (fun row =>
              if row.id == t then { row with name := nn } else row) })
    ∧ (∀ db2, Thing.set_name db t nn = .ok db2 →
        ∀ row ∈ db2.things, row.id = t → row.name = nn) := by
  have hupd : ∀ row ∈ db.things.map (fun row =>
      if row.id == t then { row with name := nn } else row), row.id = t → row.name = nn := by
    intro row hrow hid
    simp only [List.mem_map] at hrow
    obtain ⟨a, _, hfa2⟩ := hrow
    by_cases h : (a.id == t) = true
    · rw [if_pos h] at hfa2
      rw [← hfa2]
    · rw [if_neg h] at hfa2
      rw [← hfa2] at hid
      exact absurd (by simpa using hid) (by simpa using h)
  by_cases hic : Thing.is_character db t
  · cases r with
    | some v =>
      have hsn : Thing.set_name db t nn = .error (.accountNaming Thing.renameConflictMsg) := by
        unfold Thing.set_name
        rw [if_pos hic, hfa]
        rfl
      refine ⟨by simp [hsn, hic], ?_, ?_⟩
      · intro hcon
        exact absurd ⟨hic, rfl⟩ hcon
      · intro db2 hdb2
        rw [hsn] at hdb2
        exact absurd hdb2 (by simp)
    | none =>
      have hsn : Thing.set_name db t nn
          = .ok { db with things := db.things.map (fun row =>
              if row.id == t then { row with name := nn } else row) } := by
        unfold Thing.set_name
        rw [if_pos hic, hfa]
        rfl
      refine ⟨by simp [hsn], fun _ => hsn, ?_⟩
      intro db2 hdb2
      rw [hsn] at hdb2
      injection hdb2 with h2
      rw [← h2]
      exact hupd
  · have hsn : Thing.set_name db t nn
        = .ok { db with things := db.things.map (fun row =>
            if row.id == t then { row with name := nn } else row) } := by
      unfold Thing.set_name
      rw [if_neg hic]
      rfl
    refine ⟨by simp [hsn, hic], fun _ => hsn, ?_⟩
    intro db2 hdb2
    rw [hsn] at hdb2
    injection hdb2 with h2
    rw [← h2]
    exact hupd

theorem C6_witness :
    Thing.set_name dbT 3 (pstr "rock")
      = .ok { dbT with things := dbT.things.map (fun row =>
          if row.id == 3 then { row with name := pstr "rock" } else row) } :=
  (C6_rename_conflict_amended dbT 3 (pstr "rock") none (by decide)).2.1 (by decide)

theorem unaryDecodeAux_replicate (n : Nat) (acc : Nat) (rest : Str) :
    unaryDecodeAux (List.replicate n '1' ++ ';' :: rest) acc
      = (acc + n) :: unaryDecodeAux rest 0 := by
  induction n generalizing acc with
  | zero => simp [unaryDecodeAux]
  | succ k ih =>
    have h1 : ¬(('1' : Char) = ';') := by decide
    have h2 : acc + 1 + k = acc + (k + 1) := by omega
    simp only [List.replicate_succ, List.cons_append, unaryDecodeAux, if_neg h1]
    rw [List.append_eq, ih, h2]

theorem unaryDecode_encode (bs : List Nat) : unaryDecode (unaryEncode bs) = bs := by
  induction bs with
  | nil => rfl
  | cons n rest ih =>
    unfold unaryDecode unaryEncode
    rw [unaryDecodeAux_replicate]
    unfold unaryDecode at ih
    rw [ih, Nat.zero_add]

/-- Updating the rows matching an id commutes with filtering on that id,
provided the update preserves the id. -/
theorem filter_map_update_account (l : List AccountRow) (aid : Int)
    (f : AccountRow → AccountRow) (hf : ∀ a, (f a).id = a.id) :
    (l.map (fun a => if a.id == aid then f a else a)).filter (fun a => a.id == aid)
      = (l.filter (fun a => a.id == aid)).map f := by
  induction l with
  | nil => rfl
  | cons a rest ih =>
    by_cases h : (a.id == aid) = true
    · simp only [List.map_cons, List.filter_cons, if_pos h]
      have h2 : ((f a).id == aid) = true := by rw [hf a]; exact h
      rw [if_pos h2, ih]
    · simp only [List.map_cons, List.filter_cons, if_neg h]
      exact ih

/-- C7: after `set_password(x)` (with some fresh salt), `check_password(x)`
is true and `check_password(y)` is false for `y ≠ x` -- verification
re-derives the hash with the stored salt and compares it with the stored
hash.  The hypotheses state that base64 decoding undoes encoding and that
the key-derivation function does not collide on `x` and `y` at this salt
(true of PBKDF2-HMAC-SHA256 for all practical purposes; unprovable for the
real primitive, which lives outside the repository). -/
theorem C7_password_set_check (cm : CryptoModel) (db : DB) (aid : Int) (a0 : AccountRow)
    (salt : List Nat) (x y : Str)
    (hrt : ∀ bs, cm.b64decode (cm.b64encode bs) = bs)
    (hacct : db.accounts.filter (fun a => a.id == aid) = [a0])
    (_hxy : x ≠ y)
    (hnocoll : Account.hashFn cm (cm.utf8 y) salt ≠ Account.hashFn cm (cm.utf8 x) salt) :
    Account.check_password cm (Account.set_password cm db aid x salt) aid x = .ok true
    ∧ Account.check_password cm (Account.set_password cm db aid x salt) aid y = .ok false := by
  have hfilter : (Account.set_password cm db aid x salt).accounts.filter (fun a => a.id == aid)
      = [{ a0 with password := cm.b64encode (Account.hashFn cm (cm.utf8 x) salt),
                   salt := cm.b64encode salt }] := by
    unfold Account.set_password
    dsimp only
    rw [filter_map_update_account db.accounts aid
        (fun a => { a with password := cm.b64encode (Account.hashFn cm (cm.utf8 x) salt),
                           salt := cm.b64encode salt }) (fun a => rfl), hacct]
    rfl
  constructor
  · unfold Account.check_password
    rw [hfilter]
    show Except.ok (Account.hashFn cm (cm.utf8 x) (cm.b64decode (cm.b64encode salt))
        == cm.b64decode (cm.b64encode (Account.hashFn cm (cm.utf8 x) salt))) = Except.ok true
    rw [hrt, hrt]
    simp
  · unfold Account.check_password
    rw [hfilter]
    show Except.ok (Account.hashFn cm (cm.utf8 y) (cm.b64decode (cm.b64encode salt))
        == cm.b64decode (cm.b64encode (Account.hashFn cm (cm.utf8 x) salt))) = Except.ok false
    rw [hrt, hrt, beq_eq_false_iff_ne.mpr hnocoll]

theorem C7_witness :
    Account.check_password cmW (Account.set_password cmW dbW7 1 (pstr "a") [3]) 1 (pstr "a")
        = .ok true
    ∧ Account.check_password cmW (Account.set_password cmW dbW7 1 (pstr "a") [3]) 1 (pstr "b")
        = .ok false :=
  C7_password_set_check cmW dbW7 1 ⟨1, 1, [], []⟩ [3] (pstr "a") (pstr "b")
    unaryDecode_encode (by decide) (by decide) (by decide)

/-- C8: while a session is unauthenticated, a well-formed
`connect <name> <password>` attempt naming a nonexistent account and one
naming an existing account with a wrong password write exactly the same
single generic failure message to the link and leave the session state
untouched (hence still Unauthenticated): the two causes are
indistinguishable from the client output.  Stated both for `_try_login`
itself and for the full `on_text` entry point. -/
theorem C8_login_failures_indistinguishable
    (reg : Registry) (cfg : Config) (step : Str → St → St × Out × Option MErr)
    (fuel link : Nat) (st : St) (args1 args2 n1 p1 n2 p2 : Str) (aid cid : Int)
    (hsplit1 : pySplit ' ' args1 = [n1, p1])
    (hsplit2 : pySplit ' ' args2 = [n2, p2])
    (hno : find_account st.cur n1 = .ok none)
    (hacct : find_account st.cur n2 = .ok (some (aid, cid)))
    (hwrong : Account.check_password cfg.crypto st.cur aid p2 = .ok false)
    (hunauth : alookup st.clientStates link = some (-1)) :
    try_login cfg step link args1 st = (st, [(link, line texts_badLogin)], none)
    ∧ try_login cfg step link args2 st = (st, [(link, line texts_badLogin)], none)
    ∧ on_text reg cfg (fuel + 1) link (pstr "connect " ++ args1) st
        = (st, [(link, line texts_badLogin)], none)
    ∧ on_text reg cfg (fuel + 1) link (pstr "connect " ++ args2) st
        = (st, [(link, line texts_badLogin)], none) := by
  have h1 : ∀ stp, try_login cfg stp link args1 st = (st, [(link, line texts_badLogin)], none) := by
    intro stp
    unfold try_login
    rw [hsplit1]
    dsimp only
    rw [hno]
  have h2 : ∀ stp, try_login cfg stp link args2 st = (st, [(link, line texts_badLogin)], none) := by
    intro stp
    unfold try_login
    rw [hsplit2]
    dsimp only
    rw [hacct]
    dsimp only
    rw [hwrong]
  have htake : ∀ a : Str, (pstr "connect " ++ a).take 7 = pstr "connect" := by
    intro a
    rw [List.take_append_eq_append_take]
    rfl
  have hdrop : ∀ a : Str, (pstr "connect " ++ a).drop 8 = a := by
    intro a
    exact List.drop_left (pstr "connect ") a
  refine ⟨h1 step, h2 step, ?_, ?_⟩
  · rw [on_text, hunauth]
    dsimp only
    rw [if_pos rfl, if_pos (htake args1), hdrop args1, h1]
  · rw [on_text, hunauth]
    dsimp only
    rw [if_pos rfl, if_pos (htake args2), hdrop args2, h2]

theorem C8_witness :
    try_login cfgS stepW 0 (pstr "Bob pw") stL = (stL, [(0, line texts_badLogin)], none)
    ∧ try_login cfgS stepW 0 (pstr "One x") stL = (stL, [(0, line texts_badLogin)], none) :=
  ⟨(C8_login_failures_indistinguishable regS cfgS stepW 3 0 stL
      (pstr "Bob pw") (pstr "One x") (pstr "Bob") (pstr "pw") (pstr "One") (pstr "x") 1 1
      (by decide) (by decide) (by decide) (by decide) (by decide) (by decide)).1,
   (C8_login_failures_indistinguishable regS cfgS stepW 3 0 stL
      (pstr "Bob pw") (pstr "One x") (pstr "Bob") (pstr "pw") (pstr "One") (pstr "x") 1 1
      (by decide) (by decide) (by decide) (by decide) (by decide) (by decide)).2.1⟩

/-- C3: when an authenticated input line matches no prefix command and no
full command, the exits of the actor's location (Things with a non-None
destination) are filtered by substring match of the trimmed input against
their names; zero matches yield the generic not-understood message, two or
more yield the ambiguity message, and exactly one moves the actor to the
exit's destination, broadcasts the departure message to the old location
and the arrival message to the new location (both excluding the mover, via
`Thing.tell`), and then re-invokes `on_text` with `look`.  The equation
hypotheses name the intermediate lookups (names, broadcasts) that the
traversal performs. -/
theorem C3_movement_fallback (reg : Registry) (cfg : Config) (fuel link : Nat)
    (text : Str) (st : St) (c loc : Int) (pros : List Int)
    (hs : alookup st.clientStates link = some c) (hauth : c ≠ -1)
    (hpre : reg.prefixCommands.find? (fun p => p.1 == text.take p.1.length) = none)
    (hfull : reg.commands.find? (fun p => full_cmd_matches p.1 text) = none)
    (hchar : get_thing st.cur c = .ok (some c))
    (hloc : Thing.location st.cur c = .ok (some loc))
    (hpros : Thing.prospective_exits st.cur loc (pyStrip text) = .ok pros) :
    (pros = [] → on_text reg cfg (fuel + 1) link text st
        = (st, [(link, line texts_cmd404)], none))
    ∧ (2 ≤ pros.length → on_text reg cfg (fuel + 1) link text st
        = (st, [(link, line texts_triedToGoAmbiguousWay)], none))
    ∧ (∀ ex toloc dn tn fn outD outA,
        pros = [ex] →
        Thing.destination st.cur ex = .ok (some toloc) →
        Thing.display_name st.cur c = .ok dn →
        Thing.name st.cur toloc = .ok tn →
        Thing.tell st.cur st.connectedThings loc (texts_characterDeparts dn tn) [c]
          = .ok outD →
        Thing.location (Thing.move st.cur c toloc) c = .ok (some toloc) →
        Thing.display_name (Thing.move st.cur c toloc) c = .ok dn →
        Thing.name (Thing.move st.cur c toloc) loc = .ok fn →
        Thing.tell (Thing.move st.cur c toloc) st.connectedThings toloc
            (texts_characterArrives dn fn) [c] = .ok outA →
        on_text reg cfg (fuel + 1) link text st
          = ((on_text reg cfg fuel link (pstr "look") { st with cur := Thing.move st.cur c toloc }).1,
             (outD ++ outA)
               ++ (on_text reg cfg fuel link (pstr "look") { st with cur := Thing.move st.cur c toloc }).2.1,
             (on_text reg cfg fuel link (pstr "look") { st with cur := Thing.move st.cur c toloc }).2.2)) := by
  refine ⟨?_, ?_, ?_⟩
  · intro hnil
    subst hnil
    have ht : Thing.traverse_exit st.cur st.connectedThings c (pyStrip text)
        = (st.cur, [], .error .notEnough) := by
      unfold Thing.traverse_exit
      rw [hloc]
      dsimp only
      rw [hpros]
    rw [on_text, hs]
    dsimp only
    rw [if_neg hauth, hpre]
    dsimp only
    rw [hfull]
    dsimp only
    rw [hchar]
    dsimp only
    rw [hloc]
    dsimp only
    rw [ht]
    rfl
  · intro hlen
    match pros, hlen with
    | a :: b :: rest, _ =>
      have ht : Thing.traverse_exit st.cur st.connectedThings c (pyStrip text)
          = (st.cur, [], .error .tooMany) := by
        unfold Thing.traverse_exit
        rw [hloc]
        dsimp only
        rw [hpros]
      rw [on_text, hs]
      dsimp only
      rw [if_neg hauth, hpre]
      dsimp only
      rw [hfull]
      dsimp only
      rw [hchar]
      dsimp only
      rw [hloc]
      dsimp only
      rw [ht]
      rfl
  · intro ex toloc dn tn fn outD outA hex hdest hdn htn houtD haloc hdn2 hfn houtA
    subst hex
    have ht : Thing.traverse_exit st.cur st.connectedThings c (pyStrip text)
        = (Thing.move st.cur c toloc, outD ++ outA, .ok (some toloc)) := by
      unfold Thing.traverse_exit
      rw [hloc]
      dsimp only
      rw [hpros]
      dsimp only
      rw [hdest]
      dsimp only
      rw [hdn, htn]
      dsimp only
      rw [houtD]
      dsimp only
      rw [haloc]
      dsimp only
      rw [hdn2, hfn]
      dsimp only
      rw [houtA]
    rw [on_text, hs]
    dsimp only
    rw [if_neg hauth, hpre]
    dsimp only
    rw [hfull]
    dsimp only
    rw [hchar]
    dsimp only
    rw [hloc]
    dsimp only
    rw [ht]

theorem C3_witness :
    on_text regS cfgS 6 0 (pstr "nort") stM
      = (stM, [(0, line texts_triedToGoAmbiguousWay)], none)
    ∧ on_text regS cfgS 6 0 (pstr "north gate") stM
      = ((on_text regS cfgS 5 0 (pstr "look") { stM with cur := Thing.move stM.cur 1 21 }).1,
         ([] ++ [])
           ++ (on_text regS cfgS 5 0 (pstr "look") { stM with cur := Thing.move stM.cur 1 21 }).2.1,
         (on_text regS cfgS 5 0 (pstr "look") { stM with cur := Thing.move stM.cur 1 21 }).2.2) :=
  ⟨(C3_movement_fallback regS cfgS 5 0 (pstr "nort") stM 1 10 [11, 12]
      (by decide) (by decide) rfl rfl (by decide) (by decide) (by decide)).2.1 (by decide),
   (C3_movement_fallback regS cfgS 5 0 (pstr "north gate") stM 1 10 [12]
      (by decide) (by decide) rfl rfl (by decide) (by decide) (by decide)).2.2
      12 21 (pstr "One [1]") (pstr "Gatehouse") (pstr "Plaza") [] []
      rfl (by decide) (by decide) (by decide) (by decide) (by decide) (by decide)
      (by decide) (by decide)⟩

theorem alookup_eq_none {κ ν : Type} [BEq κ] (d : List (κ × ν)) (k : κ)
    (h : d.any (fun p => p.1 == k) = false) : alookup d k = none := by
  induction d with
  | nil => rfl
  | cons q rest ih =>
    rw [List.any_cons, Bool.or_eq_false_iff] at h
    rw [alookup.eq_2, if_neg (by simp [h.1]), ih h.2]

theorem alookup_map_update_self {κ ν : Type} [BEq κ] [LawfulBEq κ]
    (d : List (κ × ν)) (k : κ) (v : ν) (h : d.any (fun p => p.1 == k) = true) :
    alookup (d.map (fun p => if p.1 == k then (k, v) else p)) k = some v := by
  induction d with
  | nil => simp at h
  | cons q rest ih =>
    rw [List.map_cons]
    by_cases hq : (q.1 == k) = true
    · rw [if_pos hq, alookup.eq_2, if_pos (by simp)]
    · have hqf : (q.1 == k) = false := by simpa using hq
      rw [List.any_cons, hqf, Bool.false_or] at h
      rw [if_neg hq, alookup.eq_2, if_neg hq, ih h]

theorem alookup_aset_self {κ ν : Type} [BEq κ] [LawfulBEq κ] (d : List (κ × ν)) (k : κ) (v : ν) :
    alookup (aset d k v) k = some v := by
  unfold aset
  by_cases h : d.any (fun p => p.1 == k) = true
  · rw [if_pos h]
    exact alookup_map_update_self d k v h
  · rw [if_neg h]
    have hf : d.any (fun p => p.1 == k) = false := Bool.eq_false_iff.mpr h
    clear h
    induction d with
    | nil => rw [List.nil_append, alookup.eq_2, if_pos (by simp)]
    | cons q rest ih =>
      rw [List.any_cons, Bool.or_eq_false_iff] at hf
      rw [List.cons_append, alookup.eq_2, if_neg (by simp [hf.1])]
      exact ih hf.2

theorem alookup_map_update_ne {κ ν : Type} [BEq κ] [LawfulBEq κ]
    (d : List (κ × ν)) (k k' : κ) (v : ν) (h : ¬(k' = k)) :
    alookup (d.map (fun p => if p.1 == k then (k, v) else p)) k' = alookup d k' := by
  induction d with
  | nil => rfl
  | cons q rest ih =>
    rw [List.map_cons]
    by_cases hq : (q.1 == k) = true
    · have hqk : q.1 = k := by simpa using hq
      rw [if_pos hq, alookup.eq_2, if_neg (by simp [Ne.symm h]), alookup.eq_2,
          if_neg (by simp [hqk, Ne.symm h]), ih]
    · rw [if_neg hq, alookup.eq_2, alookup.eq_2]
      by_cases hq' : (q.1 == k') = true
      · rw [if_pos hq', if_pos hq']
      · rw [if_neg hq', if_neg hq', ih]

theorem alookup_append_single_ne {κ ν : Type} [BEq κ] [LawfulBEq κ]
    (d : List (κ × ν)) (k k' : κ) (v : ν) (h : ¬(k' = k)) :
    alookup (d ++ [(k, v)]) k' = alookup d k' := by
  induction d with
  | nil =>
    rw [List.nil_append, alookup.eq_2, if_neg (by simp [Ne.symm h])]
  | cons q rest ih =>
    rw [List.cons_append, alookup.eq_2, alookup.eq_2]
    by_cases hq' : (q.1 == k') = true
    · rw [if_pos hq', if_pos hq']
    · rw [if_neg hq', if_neg hq', ih]

theorem alookup_aset_ne {κ ν : Type} [BEq κ] [LawfulBEq κ] (d : List (κ × ν)) (k k' : κ) (v : ν)
    (h : ¬(k' = k)) : alookup (aset d k v) k' = alookup d k' := by
  unfold aset
  by_cases hany : d.any (fun p => p.1 == k) = true
  · rw [if_pos hany]
    exact alookup_map_update_ne d k k' v h
  · rw [if_neg hany]
    exact alookup_append_single_ne d k k' v h

theorem mem_aset {κ ν : Type} [BEq κ] [LawfulBEq κ] (d : List (κ × ν)) (k : κ) (v : ν)
    (p : κ × ν) (hp : p ∈ aset d k v) : p = (k, v) ∨ (p ∈ d ∧ ¬(p.1 = k)) := by
  unfold aset at hp
  by_cases hany : d.any (fun q => q.1 == k) = true
  · rw [if_pos hany] at hp
    rw [List.mem_map] at hp
    obtain ⟨q, hq, hqe⟩ := hp
    by_cases hqk : (q.1 == k) = true
    · rw [if_pos hqk] at hqe
      exact Or.inl hqe.symm
    · rw [if_neg hqk] at hqe
      refine Or.inr ⟨hqe ▸ hq, ?_⟩
      rw [← hqe]
      simpa using hqk
  · rw [if_neg hany] at hp
    rw [List.mem_append] at hp
    cases hp with
    | inl hin =>
      refine Or.inr ⟨hin, ?_⟩
      intro hk
      rw [Bool.not_eq_true, List.any_eq_false] at hany
      exact (by simpa [hk] using hany p hin)
    | inr hone =>
      exact Or.inl (by simpa using hone)

theorem alookup_filter_ne {ν : Type} (d : List (Nat × ν)) (l x : Nat) (h : ¬(x = l)) :
    alookup (d.filter (fun p => !(p.1 == l))) x = alookup d x := by
  induction d with
  | nil => rfl
  | cons q rest ih =>
    rw [List.filter_cons]
    by_cases hq : (q.1 == l) = true
    · have hql : q.1 = l := by simpa using hq
      rw [if_neg (by simp [hq]), alookup.eq_2, if_neg (by simp [hql, Ne.symm h]), ih]
    · rw [if_pos (by simp [hq]), alookup.eq_2, alookup.eq_2]
      by_cases hx : (q.1 == x) = true
      · rw [if_pos hx, if_pos hx]
      · rw [if_neg hx, if_neg hx, ih]

theorem alookup_filter_self {ν : Type} (d : List (Nat × ν)) (l : Nat) :
    alookup (d.filter (fun p => !(p.1 == l))) l = none := by
  apply alookup_eq_none
  rw [List.any_eq_false]
  intro p hp
  rw [List.mem_filter] at hp
  simpa using hp.2

theorem oneFromDb_mem {α : Type} (l : List α) (x : α) (h : oneFromDb l = .ok x) : x ∈ l := by
  cases l with
  | nil => exact absurd h (by simp [oneFromDb])
  | cons a rest =>
    cases rest with
    | nil =>
      have ha : a = x := by simpa [oneFromDb] using h
      rw [← ha]
      exact List.mem_cons_self a []
    | cons b r2 => exact absurd h (by simp [oneFromDb])

/-- A successful `find_account` names the character id of some accounts
row. -/
theorem find_account_char_mem (db : DB) (nm : Str) (acct : Int × Int)
    (h : find_account db nm = .ok (some acct)) :
    ∃ a ∈ db.accounts, a.character_id = acct.2 := by
  unfold find_account at h
  rcases hlk : Account.lookupByName db nm with e | pr
  · rw [hlk] at h
    cases e <;> simp at h
  · rw [hlk] at h
    have hpr : pr = acct := by simpa using h
    unfold Account.lookupByName at hlk
    rcases h1 : oneFromDb (db.things.filter
        (fun t => t.name == nm && db.accounts.any (fun a => a.character_id == t.id))) with e1 | r
    · rw [h1] at hlk
      simp [Bind.bind, Except.bind] at hlk
    · rw [h1] at hlk
      dsimp only [Bind.bind, Except.bind] at hlk
      rcases h2 : oneFromDb (db.accounts.filter (fun a => a.character_id == r.id)) with e2 | a
      · rw [h2] at hlk
        simp [Except.bind] at hlk
      · rw [h2] at hlk
        dsimp only [Except.bind, pure, Except.pure] at hlk
        have hacct : (a.id, r.id) = pr := by simpa using hlk
        have hmem := oneFromDb_mem _ _ h2
        rw [List.mem_filter] at hmem
        refine ⟨a, hmem.1, ?_⟩
        have hchar : a.character_id = r.id := by simpa using hmem.2
        rw [hchar, ← hpr, ← hacct]

/-- `traverse_exit` only rewrites the `things` table (move); the accounts
table is untouched on every path. -/
theorem traverse_exit_accounts (db : DB) (ct : List (Int × Nat)) (t : Int) (ex : Str) :
    (Thing.traverse_exit db ct t ex).1.accounts = db.accounts := by
  unfold Thing.traverse_exit
  repeat' first
  | rfl
  | split
  | dsimp only

theorem stInv_call_command (cfg : Config) (h : Handler) (hok : HandlerOK h)
    (fuel link : Nat) (text : Str) (st : St) (hinv : StInv st) :
    StInv (call_command cfg h fuel link text st).1 := by
  obtain ⟨hsi, hca, hsa⟩ := hinv
  obtain ⟨h1, h2, h3, h4⟩ := hok fuel link text st
  unfold call_command
  rcases hr : h fuel link text st with ⟨st', out, e⟩
  rw [hr] at h1 h2 h3 h4
  dsimp only at h1 h2 h3 h4
  have hsi' : ∀ p ∈ st'.connectedThings, p.1 ≠ -1 ∧ alookup st'.clientStates p.2 = some p.1 := by
    intro p hp
    rw [h2] at hp
    rw [h1]
    exact hsi p hp
  cases e with
  | none =>
    refine ⟨hsi', ?_, ?_⟩
    · intro a ha
      rw [h3] at ha
      exact hca a ha
    · intro a ha
      rw [h3] at ha
      exact hca a ha
  | some e' =>
    cases e' <;>
      exact ⟨hsi', fun a ha => hsa a (h4 ▸ ha), fun a ha => hsa a (h4 ▸ ha)⟩

theorem stInv_run_lines (step : Str → St → St × Out × Option MErr)
    (hstep : ∀ c s, StInv s → StInv (step c s).1)
    (cmds : List Str) (st : St) (hinv : StInv st) :
    StInv (run_lines step cmds st).1 := by
  induction cmds generalizing st with
  | nil => exact hinv
  | cons c rest ih =>
    unfold run_lines
    rcases hr : step c st with ⟨st', out, e⟩
    have hinv' : StInv st' := by
      have hh := hstep c st hinv
      rw [hr] at hh
      exact hh
    cases e with
    | some e2 => exact hinv'
    | none => exact ih st' hinv'

theorem stInv_try_login (cfg : Config) (step : Str → St → St × Out × Option MErr)
    (hstep : ∀ c s, StInv s → StInv (step c s).1)
    (link : Nat) (args : Str) (st : St) (hinv : StInv st)
    (hunauth : alookup st.clientStates link = some (-1)) :
    StInv (try_login cfg step link args st).1 := by
  unfold try_login
  rcases hsp : pySplit ' ' args with _ | ⟨nm, _ | ⟨pw, _ | ⟨w, ws⟩⟩⟩
  · exact hinv
  · exact hinv
  · dsimp only
    rcases hfa : find_account st.cur nm with e | r
    · exact hinv
    cases r with
    | none => exact hinv
    | some acct =>
      dsimp only
      rcases hcp : Account.check_password cfg.crypto st.cur acct.1 pw with e | b
      · exact hinv
      cases b with
      | false => exact hinv
      | true =>
        dsimp only
        rw [hunauth]
        dsimp only
        have hacctne : acct.2 ≠ -1 := by
          obtain ⟨a, ha, hac⟩ := find_account_char_mem st.cur nm acct hfa
          rw [← hac]
          exact hinv.2.1 a ha
        have hinv1 : StInv { st with
            clientStates := aset st.clientStates link acct.2,
            connectedThings := aset st.connectedThings acct.2 link } := by
          refine ⟨?_, hinv.2.1, hinv.2.2⟩
          intro p hp
          rcases mem_aset _ _ _ p hp with hpe | ⟨hpin, _⟩
          · rw [hpe]
            exact ⟨hacctne, alookup_aset_self st.clientStates link acct.2⟩
          · have hold := hinv.1 p hpin
            refine ⟨hold.1, ?_⟩
            by_cases hpl : p.2 = link
            · exfalso
              rw [hpl, hunauth] at hold
              have hpone : p.1 = -1 := by
                have h2 := hold.2
                injection h2 with h3
                exact h3.symm
              exact hold.1 hpone
            · rw [alookup_aset_ne _ _ _ _ hpl]
              exact hold.2
        rcases hrl : run_lines step cfg.loginCommands { st with
            clientStates := aset st.clientStates link acct.2,
            connectedThings := aset st.connectedThings acct.2 link } with ⟨st2, out2, e2⟩
        have hinv2 : StInv st2 := by
          have hh := stInv_run_lines step hstep cfg.loginCommands _ hinv1
          rw [hrl] at hh
          exact hh
        cases e2 with
        | some e3 => exact hinv2
        | none =>
          dsimp only
          repeat' first
          | exact hinv2
          | split
  · exact hinv

theorem stInv_on_text (reg : Registry) (cfg : Config) (hreg : RegistryOK reg) :
    ∀ (fuel link : Nat) (text : Str) (st : St), StInv st →
      StInv (on_text reg cfg fuel link text st).1 := by
  intro fuel
  induction fuel with
  | zero =>
    intro link text st hinv
    exact hinv
  | succ f ih =>
    intro link text st hinv
    rw [on_text]
    rcases hcs : alookup st.clientStates link with _ | s
    · exact hinv
    · dsimp only
      by_cases hs1 : s = -1
      · rw [if_pos hs1]
        by_cases hconn : text.take 7 = pstr "connect"
        · rw [if_pos hconn]
          exact stInv_try_login cfg _ (fun c s2 hi => ih link c s2 hi) link (text.drop 8) st
            hinv (hs1 ▸ hcs)
        · rw [if_neg hconn]
          exact hinv
      · rw [if_neg hs1]
        split
        next cp heq =>
          have hok : HandlerOK cp.2 := hreg.2 cp (List.mem_of_find?_eq_some heq)
          exact stInv_call_command cfg cp.2 hok f link (text.drop cp.1.length) st hinv
        next =>
          split
          next cc heq =>
            have hok : HandlerOK cc.2 := hreg.1 cc (List.mem_of_find?_eq_some heq)
            exact stInv_call_command cfg cc.2 hok f link (text.drop (cc.1.length + 1)) st hinv
          next =>
            split
            next e heq => exact hinv
            next heq => exact hinv
            next val heq =>
              split
              next e heq2 => exact hinv
              next heq2 => exact hinv
              next val2 heq2 =>
                have hinvm : ∀ db2,
                    (Thing.traverse_exit st.cur st.connectedThings s (pyStrip text)).1 = db2 →
                    StInv { st with cur := db2 } := by
                  intro db2 hdb2
                  refine ⟨hinv.1, ?_, hinv.2.2⟩
                  intro a ha
                  rw [← hdb2, traverse_exit_accounts] at ha
                  exact hinv.2.1 a ha
                split
                next db2 out1 a heq3 =>
                  exact ih link (pstr "look") _ (hinvm db2 (by rw [heq3]))
                next db2 out1 heq3 => exact hinvm db2 (by rw [heq3])
                next db2 out1 heq3 => exact hinvm db2 (by rw [heq3])
                next db2 out1 e hne htm heq3 => exact hinvm db2 (by rw [heq3])

theorem stInv_on_disconnection (st : St) (link : Nat) (hinv : StInv st) :
    StInv (on_disconnection st link).1 := by
  unfold on_disconnection
  rcases hcs : alookup st.clientStates link with _ | c
  · exact hinv
  · dsimp only
    have hproceed : StInv { st with
        clientStates := st.clientStates.filter (fun p => !(p.1 == link)),
        connectedThings := st.connectedThings.filter (fun p =>
          (st.clientStates.filter (fun q => !(q.1 == link))).any (fun q => q.1 == p.2)) } := by
      refine ⟨?_, hinv.2.1, hinv.2.2⟩
      intro p hp
      rw [List.mem_filter] at hp
      have hold := hinv.1 p hp.1
      refine ⟨hold.1, ?_⟩
      have hpl : ¬(p.2 = link) := by
        intro hpl
        have h2 := hp.2
        rw [hpl, List.any_eq_true] at h2
        obtain ⟨q, hq, hqq⟩ := h2
        rw [List.mem_filter] at hq
        have hq2 : (q.1 == link) = false := by simpa using hq.2
        have hqq2 : (q.1 == link) = true := hqq
        rw [hq2] at hqq2
        cases hqq2
      rw [alookup_filter_ne _ _ _ hpl]
      exact hold.2
    split
    next e heq => exact hinv
    next heq => exact hproceed
    next me heq =>
      split
      next e heq2 => exact hinv
      next heq2 => exact hinv
      next l heq2 =>
        split
        next e heq3 => exact hinv
        next nm heq3 =>
          split
          next e heq4 => exact hinv
          next out heq4 => exact hproceed

/-- The completing (non-raising) `on_disconnection` removes the departing
link from `client_states` and keeps exactly the `connected_things` entries
whose link is still a `client_states` key. -/
theorem on_disconnection_purges (st : St) (link : Nat)
    (hok : (on_disconnection st link).2.2 = none) :
    (on_disconnection st link).1.clientStates
        = st.clientStates.filter (fun p => !(p.1 == link))
    ∧ alookup (on_disconnection st link).1.clientStates link = none
    ∧ (on_disconnection st link).1.connectedThings
        = st.connectedThings.filter (fun p =>
            (st.clientStates.filter (fun q => !(q.1 == link))).any (fun q => q.1 == p.2)) := by
  revert hok
  unfold on_disconnection
  rcases hcs : alookup st.clientStates link with _ | c
  · intro hok
    exact absurd hok (by simp)
  · dsimp only
    split
    next e heq =>
      intro hok
      exact absurd hok (by simp)
    next heq =>
      intro _
      exact ⟨rfl, alookup_filter_self _ _, rfl⟩
    next me heq =>
      split
      next e heq2 =>
        intro hok
        exact absurd hok (by simp)
      next heq2 =>
        intro hok
        exact absurd hok (by simp)
      next l heq2 =>
        split
        next e heq3 =>
          intro hok
          exact absurd hok (by simp)
        next nm heq3 =>
          split
          next e heq4 =>
            intro hok
            exact absurd hok (by simp)
          next out heq4 =>
            intro _
            exact ⟨rfl, alookup_filter_self _ _, rfl⟩

/-- C9: after every sequence of the public session operations
(`on_connection`, `on_text`, `on_disconnection`) starting from a fresh
server state, the reverse index `connected_things` is consistent with
`client_states`: every entry `(thingId, link)` has `link` present as a
`client_states` key with its character equal to `thingId`; and a
completing `on_disconnection` removes the departing link from
`client_states` and purges every `connected_things` entry pointing at a
link no longer in `client_states`.  `hreg` states that the registered
handlers do not touch the session dictionaries or the accounts table
(true of every command in commands.py), and `hdb` that no account uses
the reserved `-1` sentinel as its character id. -/
theorem C9_session_reverse_index (reg : Registry) (cfg : Config) (db0 : DB)
    (ops : List SessionOp) (hreg : RegistryOK reg) (hdb : AccountsOK db0) :
    SessionInv (runOps reg cfg ⟨db0, db0, [], []⟩ ops)
    ∧ (∀ (st2 : St) (link : Nat), (on_disconnection st2 link).2.2 = none →
        (on_disconnection st2 link).1.clientStates
            = st2.clientStates.filter (fun p => !(p.1 == link))
        ∧ alookup (on_disconnection st2 link).1.clientStates link = none
        ∧ (on_disconnection st2 link).1.connectedThings
            = st2.connectedThings.filter (fun p =>
                (st2.clientStates.filter (fun q => !(q.1 == link))).any
                  (fun q => q.1 == p.2))) := by
  have hstep : ∀ (st : St) (op : SessionOp), StInv st → StInv (applyOp reg cfg st op) := by
    intro st op hinv
    cases op with
    | connect l =>
      unfold applyOp
      dsimp only
      by_cases hany : st.clientStates.any (fun p => p.1 == l) = true
      · rw [if_pos hany]
        exact hinv
      · rw [if_neg hany]
        unfold on_connection
        refine ⟨?_, hinv.2.1, hinv.2.2⟩
        intro p hp
        have hold := hinv.1 p hp
        refine ⟨hold.1, ?_⟩
        by_cases hpl : p.2 = l
        · exfalso
          rw [hpl, alookup_eq_none st.clientStates l (Bool.eq_false_iff.mpr hany)] at hold
          cases hold.2
        · rw [alookup_aset_ne _ _ _ _ hpl]
          exact hold.2
    | text f l m => exact stInv_on_text reg cfg hreg f l m st hinv
    | disconnect l => exact stInv_on_disconnection st l hinv
  have hrun : ∀ (opl : List SessionOp) (st : St), StInv st → StInv (runOps reg cfg st opl) := by
    intro opl
    induction opl with
    | nil =>
      intro st hinv
      exact hinv
    | cons op rest ihr =>
      intro st hinv
      exact ihr _ (hstep st op hinv)
  have hinit : StInv ⟨db0, db0, [], []⟩ :=
    ⟨fun p hp => absurd hp (List.not_mem_nil p), hdb, hdb⟩
  refine ⟨(hrun ops ⟨db0, db0, [], []⟩ hinit).1, ?_⟩
  intro st2 link hok
  exact on_disconnection_purges st2 link hok

theorem handlerOK_do_badly : HandlerOK do_badly :=
  fun _ _ _ _ => ⟨rfl, rfl, rfl, rfl⟩

theorem regW9_ok : RegistryOK regW9 := by
  constructor
  · intro p hp
    have hp2 : p = (pstr "crash", do_badly) := by simpa [regW9] using hp
    rw [hp2]
    exact handlerOK_do_badly
  · intro p hp
    simp [regW9] at hp

theorem C9_witness :
    SessionInv (runOps regW9 cfgS ⟨dbL, dbL, [], []⟩
      [.connect 0, .text 4 0 (pstr "connect One pw"), .text 4 0 (pstr "crash"), .disconnect 0])
    ∧ (∀ (st2 : St) (link : Nat), (on_disconnection st2 link).2.2 = none →
        (on_disconnection st2 link).1.clientStates
            = st2.clientStates.filter (fun p => !(p.1 == link))
        ∧ alookup (on_disconnection st2 link).1.clientStates link = none
        ∧ (on_disconnection st2 link).1.connectedThings
            = st2.connectedThings.filter (fun p =>
                (st2.clientStates.filter (fun q => !(q.1 == link))).any
                  (fun q => q.1 == p.2))) :=
  C9_session_reverse_index regW9 cfgS dbL
    [.connect 0, .text 4 0 (pstr "connect One pw"), .text 4 0 (pstr "crash"), .disconnect 0]
    regW9_ok (by unfold AccountsOK; decide)

end Mica
